import Mathlib

/-!
Shallow embedding of the `cliclack` text-prompt core (`src/lib.rs`,
`src/text.rs`).  The repository ships only `lib.rs` and `text.rs`; the
`cursor` (StringCursor), `interaction` (Event / State / driver loop) and
`theme` modules are referenced by `text.rs` but their sources are not in
the repository snapshot, so those parts are modelled from the spec, each
with a doc comment saying so.
-/

namespace Cliclack

/-- Key events as delivered by the terminal collaborator (the subset of
`console::Key` that `Text::notify` distinguishes, plus further variants
falling into its catch-all arm). -/
inductive Key where
  | Char (c : Char)
  | Backspace
  | Del
  | ArrowLeft
  | ArrowRight
  | ArrowUp
  | ArrowDown
  | Enter
  | Escape
  | Home
  | Tab
  | Unknown
  deriving DecidableEq, Repr

/-- Modelled from the spec: the event type fed to a prompt state machine
(`interaction` module, not in the snapshot); `text.rs` matches only
`Event::Key(key)`. -/
inductive Event where
  | Key (k : Key)
  deriving DecidableEq, Repr

/-- Modelled from the spec: `Interaction State<T>` — the tagged variant
`Active | Error(String) | Submit(T) | Cancel` (`interaction` module,
not in the snapshot). -/
inductive State (T : Type) where
  | Active
  | Error (msg : String)
  | Submit (value : T)
  | Cancel
  deriving DecidableEq, Repr

/-- Modelled from the spec: the Text Cursor Buffer (`cursor::StringCursor`,
not in the snapshot): an ordered sequence of characters plus a caret index
in `[0, length]`. -/
structure StringCursor where
  chars : List Char
  cursor : Nat
  deriving DecidableEq, Repr

/-- Modelled from the spec: the buffer is "created empty"
(`StringCursor::default()`). -/
def StringCursor.default : StringCursor := ⟨[], 0⟩

/-- Modelled from the spec: `insert(char)` at caret, advances caret by one. -/
def StringCursor.insert (sc : StringCursor) (c : Char) : StringCursor :=
  ⟨sc.chars.take sc.cursor ++ c :: sc.chars.drop sc.cursor, sc.cursor + 1⟩

/-- Modelled from the spec: `delete_left()` removes the character before the
caret; no-op at position 0. -/
def StringCursor.delete_left (sc : StringCursor) : StringCursor :=
  if sc.cursor = 0 then sc
  else ⟨sc.chars.take (sc.cursor - 1) ++ sc.chars.drop sc.cursor, sc.cursor - 1⟩

/-- Modelled from the spec: `delete_right()` removes the character at the
caret; no-op at the end. -/
def StringCursor.delete_right (sc : StringCursor) : StringCursor :=
  if sc.cursor < sc.chars.length then
    ⟨sc.chars.take sc.cursor ++ sc.chars.drop (sc.cursor + 1), sc.cursor⟩
  else sc

/-- Modelled from the spec: `move_left()` clamps at the lower bound. -/
def StringCursor.move_left (sc : StringCursor) : StringCursor :=
  if sc.cursor = 0 then sc else ⟨sc.chars, sc.cursor - 1⟩

/-- Modelled from the spec: `move_right()` clamps at the upper bound. -/
def StringCursor.move_right (sc : StringCursor) : StringCursor :=
  if sc.cursor < sc.chars.length then ⟨sc.chars, sc.cursor + 1⟩ else sc

/-- Modelled from the spec: `to_string()` yields the full content. -/
def StringCursor.to_string (sc : StringCursor) : String :=
  String.mk sc.chars

/-- Modelled from the spec: `extend` seeds the buffer with a string by
inserting its characters in order at the caret (used by
`Text::placeholder`). -/
def StringCursor.extend (sc : StringCursor) (s : String) : StringCursor :=
  s.toList.foldl (fun acc c => acc.insert c) sc

/-- `char::is_ascii_control` from Rust: U+0000 ..= U+001F or U+007F. -/
def isAsciiControl (c : Char) : Bool :=
  c.toNat ≤ 0x1f || c.toNat == 0x7f

/-- Validator type from `text.rs`: `Box<dyn Fn(&str) -> Result<(), String>>`. -/
def ValidatorFn : Type := String → Except String Unit

/-- The `Text` prompt struct from `text.rs`. -/
structure Text where
  prompt : String
  placeholder : StringCursor
  input : StringCursor
  validate : Option ValidatorFn

/-- `Text::new` from `text.rs`. -/
def Text.new (prompt : String) : Text :=
  { prompt := prompt
    placeholder := StringCursor.default
    input := StringCursor.default
    validate := none }

/-- `Text::placeholder` from `text.rs`: extends the placeholder cursor with
the given string and returns the (otherwise unchanged) builder. -/
def Text.withPlaceholder (t : Text) (placeholder : String) : Text :=
  { t with placeholder := t.placeholder.extend placeholder }

/-- `Text::validate` from `text.rs`: installs the validator. -/
def Text.withValidate (t : Text) (v : ValidatorFn) : Text :=
  { t with validate := some v }

/-- `Text::notify` from `text.rs` (lines 52–83): the state machine step.
In Rust this mutates `self` and returns a `State<String>`; here it returns
the new private state together with the returned interaction state. -/
def Text.notify (t : Text) (event : Event) : Text × State String :=
  match event with
  | Event.Key key =>
    match key with
    | Key.Char chr =>
      if !isAsciiControl chr then
        ({ t with input := t.input.insert chr }, State.Active)
      else
        (t, State.Active)
    | Key.Backspace => ({ t with input := t.input.delete_left }, State.Active)
    | Key.Del => ({ t with input := t.input.delete_right }, State.Active)
    | Key.ArrowLeft => ({ t with input := t.input.move_left }, State.Active)
    | Key.ArrowRight => ({ t with input := t.input.move_right }, State.Active)
    | Key.Enter =>
      match t.validate with
      | some validator =>
        match validator t.input.to_string with
        | Except.error err => (t, State.Error err)
        | Except.ok _ => (t, State.Submit t.input.to_string)
      | none => (t, State.Submit t.input.to_string)
    | _ => (t, State.Active)

/-- Modelled from the spec: the default theme's text renderer
(`ClackTheme::render_text`, `theme` module not in the snapshot).  Per §4.3
it deterministically assembles a state symbol and prompt header, an input
echo body (placeholder shown while the input is empty), and an error
footer when the state is `Error`. -/
def ClackTheme.render_text (state : State String) (prompt : String)
    (input : StringCursor) (placeholder : StringCursor) : String :=
  let symbol :=
    match state with
    | State.Active => "◆"
    | State.Error _ => "▲"
    | State.Submit _ => "◇"
    | State.Cancel => "■"
  let body :=
    if input.chars.isEmpty then placeholder.to_string else input.to_string
  let footer :=
    match state with
    | State.Error msg => "\n" ++ msg
    | _ => ""
  symbol ++ " " ++ prompt ++ "\n" ++ body ++ footer

/-- `Text::render` from `text.rs` (lines 85–87): delegates to the theme.
In Rust it takes `&mut self` but only passes shared borrows; the embedding
returns the (unchanged) private state alongside the rendered string. -/
def Text.render (t : Text) (state : State String) : Text × String :=
  (t, ClackTheme.render_text state t.prompt t.input t.placeholder)

/-- Modelled from the spec: the per-iteration result of the driver's
terminal I/O (render/write followed by the blocking key read, §4.4).
`ioErr` stands for any terminal read/write/mode-change failure at that
iteration. -/
inductive TermStep where
  | key (k : Key)
  | ioErr (e : String)
  deriving DecidableEq, Repr

/-- Outcome of a completed interaction: a submitted value or a
user cancellation (surfaced distinctly, §7(b)). -/
inductive Outcome where
  | submitted (value : String)
  | cancelled
  deriving DecidableEq, Repr

/-- Result of running the driver on a finite stream of terminal steps:
either it ended with an I/O error, finished with an outcome, or consumed
the whole stream while still waiting for input. -/
inductive RunResult where
  | ioError (e : String)
  | done (o : Outcome)
  | pending
  deriving DecidableEq, Repr

/-- Modelled from the spec: the driver's uniform cancel-key handling
(§4.2): a received Escape transitions to Cancel regardless of private
state; any other key is dispatched to the machine's `notify`. -/
def dispatchKey (t : Text) (k : Key) : Text × State String :=
  if k = Key.Escape then (t, State.Cancel) else t.notify (Event.Key k)

/-- Modelled from the spec: the interaction driver loop behind
`Text::interact` (§4.4, `PromptInteraction::interact`, not in the
snapshot): each iteration performs terminal I/O (a failure propagates
immediately, never retried), dispatches the key, and terminates on Submit
or Cancel without dispatching further events. -/
def interactRun (t : Text) : List TermStep → RunResult
  | [] => RunResult.pending
  | TermStep.ioErr e :: _ => RunResult.ioError e
  | TermStep.key k :: rest =>
    match dispatchKey t k with
    | (_, State.Submit v) => RunResult.done (Outcome.submitted v)
    | (_, State.Cancel) => RunResult.done Outcome.cancelled
    | (t', _) => interactRun t' rest

/-- The editing operations of the Text Cursor Buffer, for quantifying over
operation sequences (§4.1, §8). -/
inductive Op where
  | insert (c : Char)
  | delete_left
  | delete_right
  | move_left
  | move_right
  deriving DecidableEq, Repr

/-- Apply one editing operation to the cursor buffer. -/
def StringCursor.applyOp (sc : StringCursor) : Op → StringCursor
  | Op.insert c => sc.insert c
  | Op.delete_left => sc.delete_left
  | Op.delete_right => sc.delete_right
  | Op.move_left => sc.move_left
  | Op.move_right => sc.move_right

/-- Apply a sequence of editing operations in order. -/
def StringCursor.applyOps (sc : StringCursor) (ops : List Op) : StringCursor :=
  ops.foldl StringCursor.applyOp sc

/-- Well-formedness of the cursor buffer: the caret index lies in
`[0, length]` (§3). -/
def StringCursor.wf (sc : StringCursor) : Prop :=
  sc.cursor ≤ sc.chars.length

instance (sc : StringCursor) : Decidable sc.wf := by
  unfold StringCursor.wf; infer_instance

/-- Reference model for the net effect of editing operations: the text
split at the caret, with the part before the caret kept reversed. -/
structure Zipper where
  before : List Char
  after : List Char
  deriving DecidableEq, Repr

/-- The net effect of one operation on the split-text model, following the
spec's description of each operation (§4.1). -/
def Zipper.applyOp (z : Zipper) : Op → Zipper
  | Op.insert c => ⟨c :: z.before, z.after⟩
  | Op.delete_left => ⟨z.before.tail, z.after⟩
  | Op.delete_right => ⟨z.before, z.after.tail⟩
  | Op.move_left =>
    match z.before with
    | [] => z
    | b :: bs => ⟨bs, b :: z.after⟩
  | Op.move_right =>
    match z.after with
    | [] => z
    | a :: rest => ⟨a :: z.before, rest⟩

/-- Apply a sequence of operations to the split-text model. -/
def Zipper.applyOps (z : Zipper) (ops : List Op) : Zipper :=
  ops.foldl Zipper.applyOp z

/-- Full content of the split-text model. -/
def Zipper.toStr (z : Zipper) : String :=
  String.mk (z.before.reverse ++ z.after)

/-- View a cursor buffer as its split at the caret. -/
def StringCursor.toZipper (sc : StringCursor) : Zipper :=
  ⟨(sc.chars.take sc.cursor).reverse, sc.chars.drop sc.cursor⟩

/-- Iterate the state machine on the Enter key `n` times, keeping the
private state (for reasoning about repeated submit attempts). -/
def enterIter (t : Text) : Nat → Text
  | 0 => t
  | n + 1 => ((enterIter t n).notify (Event.Key Key.Enter)).1

/-- Deliver the characters of a string to the state machine one key event
at a time, keeping the private state. -/
def typeString (t : Text) (s : String) : Text :=
  s.toList.foldl (fun acc c => (acc.notify (Event.Key (Key.Char c))).1) t

/-! ### Helper lemmas -/

theorem StringCursor.to_string_eq_toStr (sc : StringCursor) :
    sc.to_string = sc.toZipper.toStr := by
  simp [StringCursor.to_string, StringCursor.toZipper, Zipper.toStr]

theorem take_reverse_eq_cons {l : List Char} {n : Nat} (h : n < l.length) :
    (l.take (n + 1)).reverse = l[n] :: (l.take n).reverse := by
  rw [List.take_succ, List.getElem?_eq_getElem h]
  simp

theorem take_reverse_eq_cons' {l : List Char} {n : Nat} (h0 : n ≠ 0)
    (h : n - 1 < l.length) :
    (l.take n).reverse = l[n - 1] :: (l.take (n - 1)).reverse := by
  obtain ⟨m, rfl⟩ : ∃ m, n = m + 1 := ⟨n - 1, by omega⟩
  simp only [Nat.add_sub_cancel]
  exact take_reverse_eq_cons (by omega)

theorem StringCursor.applyOp_wf (sc : StringCursor) (op : Op) (h : sc.wf) :
    (sc.applyOp op).wf := by
  unfold StringCursor.wf at *
  cases op <;>
    simp only [StringCursor.applyOp, StringCursor.insert, StringCursor.delete_left,
      StringCursor.delete_right, StringCursor.move_left, StringCursor.move_right]
  case insert c => simp; omega
  case delete_left => split <;> simp_all <;> omega
  case delete_right => split <;> simp_all <;> omega
  case move_left => split <;> simp_all <;> omega
  case move_right => split <;> simp_all <;> omega

theorem StringCursor.toZipper_applyOp (sc : StringCursor) (op : Op) (h : sc.wf) :
    (sc.applyOp op).toZipper = sc.toZipper.applyOp op := by
  obtain ⟨l, n⟩ := sc
  unfold StringCursor.wf at h
  simp only at h
  have hlen : (l.take n).length = n := by simp [List.length_take]; omega
  cases op
  case insert c =>
    simp only [StringCursor.applyOp, StringCursor.insert, StringCursor.toZipper,
      Zipper.applyOp, Zipper.mk.injEq]
    have h1 : n + 1 = (l.take n).length + 1 := by omega
    constructor
    · rw [h1, List.take_append]; simp
    · rw [h1, List.drop_append]; simp
  case delete_left =>
    simp only [StringCursor.applyOp, StringCursor.delete_left]
    split
    case isTrue h0 =>
      subst h0
      simp [StringCursor.toZipper, Zipper.applyOp]
    case isFalse h0 =>
      have hn : n - 1 < l.length := by omega
      have hlen' : (l.take (n - 1)).length = n - 1 := by
        simp [List.length_take]; omega
      simp only [StringCursor.toZipper, Zipper.applyOp, Zipper.mk.injEq]
      constructor
      · rw [List.take_append_of_le_length (by omega), List.take_take,
          take_reverse_eq_cons' h0 hn]
        simp
      · rw [List.drop_append_of_le_length (by omega),
          List.drop_eq_nil_of_le (by omega)]
        simp
  case delete_right =>
    simp only [StringCursor.applyOp, StringCursor.delete_right]
    split
    case isTrue h0 =>
      simp only [StringCursor.toZipper, Zipper.applyOp, Zipper.mk.injEq]
      constructor
      · rw [List.take_append_of_le_length (by omega), List.take_take]
        simp
      · rw [List.drop_append_of_le_length (by omega),
          List.drop_eq_nil_of_le (by omega), List.drop_eq_getElem_cons h0]
        simp
    case isFalse h0 =>
      simp only [StringCursor.toZipper, Zipper.applyOp, Zipper.mk.injEq]
      rw [List.drop_eq_nil_of_le (by omega)]
      simp
  case move_left =>
    simp only [StringCursor.applyOp, StringCursor.move_left]
    split
    case isTrue h0 =>
      subst h0
      simp [StringCursor.toZipper, Zipper.applyOp]
    case isFalse h0 =>
      have hn : n - 1 < l.length := by omega
      simp only [StringCursor.toZipper, Zipper.applyOp,
        take_reverse_eq_cons' h0 hn, Zipper.mk.injEq]
      rw [List.drop_eq_getElem_cons hn]
      refine ⟨trivial, ?_⟩
      have h3 : n - 1 + 1 = n := by omega
      rw [h3]
  case move_right =>
    simp only [StringCursor.applyOp, StringCursor.move_right]
    split
    case isTrue h0 =>
      simp only [StringCursor.toZipper, Zipper.applyOp]
      rw [List.drop_eq_getElem_cons h0]
      simp only [take_reverse_eq_cons h0]
    case isFalse h0 =>
      simp only [StringCursor.toZipper, Zipper.applyOp]
      rw [List.drop_eq_nil_of_le (by omega)]

theorem StringCursor.applyOps_wf (sc : StringCursor) (ops : List Op)
    (h : sc.wf) : (sc.applyOps ops).wf := by
  induction ops generalizing sc with
  | nil => exact h
  | cons op rest ih => exact ih _ (sc.applyOp_wf op h)

theorem StringCursor.toZipper_applyOps (sc : StringCursor) (ops : List Op)
    (h : sc.wf) : (sc.applyOps ops).toZipper = sc.toZipper.applyOps ops := by
  induction ops generalizing sc with
  | nil => rfl
  | cons op rest ih =>
    show ((sc.applyOp op).applyOps rest).toZipper
        = (sc.toZipper.applyOp op).applyOps rest
    rw [← sc.toZipper_applyOp op h]
    exact ih _ (sc.applyOp_wf op h)

theorem StringCursor.extend_at_end (sc : StringCursor) (cs : List Char)
    (h : sc.cursor = sc.chars.length) :
    cs.foldl StringCursor.insert sc
      = ⟨sc.chars ++ cs, sc.chars.length + cs.length⟩ := by
  induction cs generalizing sc with
  | nil =>
    obtain ⟨l, n⟩ := sc
    simp only at h
    subst h
    simp
  | cons c rest ih =>
    obtain ⟨l, n⟩ := sc
    simp only at h
    subst h
    show rest.foldl StringCursor.insert
        (StringCursor.insert ⟨l, l.length⟩ c) = _
    have hins : StringCursor.insert ⟨l, l.length⟩ c
        = ⟨l ++ [c], l.length + 1⟩ := by
      simp [StringCursor.insert, List.take_of_length_le (Nat.le_refl _),
        List.drop_of_length_le (Nat.le_refl _)]
    rw [hins, ih _ (by simp)]
    simp
    omega

theorem notify_enter_failed (t : Text) (v : ValidatorFn) (m : String)
    (hv : t.validate = some v)
    (hm : v t.input.to_string = Except.error m) :
    t.notify (Event.Key Key.Enter) = (t, State.Error m) := by
  simp [Text.notify, hv, hm]

/-! ### Claim theorems -/

/-- C1: with a validator that rejects the current buffer content, Enter
returns `State::Error` with the validator's message, leaves the whole
prompt (in particular its input buffer) unchanged, and never returns
Submit, across arbitrarily many repeated failed Enter attempts. -/
theorem C1_enter_validation_failure (t : Text) (v : ValidatorFn) (m : String)
    (hv : t.validate = some v)
    (hm : v t.input.to_string = Except.error m) :
    (∀ n : Nat, enterIter t n = t) ∧
    (∀ n : Nat,
      ((enterIter t n).notify (Event.Key Key.Enter)).2 = State.Error m ∧
      (enterIter t n).input = t.input ∧
      ∀ s : String,
        ((enterIter t n).notify (Event.Key Key.Enter)).2 ≠ State.Submit s) := by
  have hfix : ∀ n : Nat, enterIter t n = t := by
    intro n
    induction n with
    | zero => rfl
    | succ k ih =>
      show ((enterIter t k).notify (Event.Key Key.Enter)).1 = t
      rw [ih, notify_enter_failed t v m hv hm]
  refine ⟨hfix, fun n => ?_⟩
  rw [hfix n, notify_enter_failed t v m hv hm]
  exact ⟨rfl, rfl, fun s h => by cases h⟩

/-- C1 witness: a concrete prompt with an always-failing validator. -/
theorem C1_enter_validation_failure_witness :
    ((Text.new "q").withValidate (fun _ => Except.error "bad")).validate
        = some (fun _ => Except.error "bad") ∧
    (((Text.new "q").withValidate (fun _ => Except.error "bad")).notify
        (Event.Key Key.Enter)).2 = State.Error "bad" := by
  refine ⟨rfl, ?_⟩
  have h := C1_enter_validation_failure
    ((Text.new "q").withValidate (fun _ => Except.error "bad"))
    (fun _ => Except.error "bad") "bad" rfl rfl
  have h2 := (h.2 0).1
  exact h2

/-- C2: with no validator, or a validator accepting the current buffer
content, Enter returns `State::Submit` carrying exactly the buffer's
current string; typing "hello" into a fresh prompt and pressing Enter
yields Submit("hello"). -/
theorem C2_enter_submit :
    (∀ t : Text,
      (t.validate = none ∨
        ∃ v : ValidatorFn, t.validate = some v ∧
          v t.input.to_string = Except.ok ()) →
      t.notify (Event.Key Key.Enter) = (t, State.Submit t.input.to_string)) ∧
    ((typeString (Text.new "What is the meaning of life?") "hello").notify
        (Event.Key Key.Enter)).2 = State.Submit "hello" := by
  constructor
  · rintro t (hnone | ⟨v, hv, hok⟩)
    · simp [Text.notify, hnone]
    · simp [Text.notify, hv, hok]
  · rfl

/-- C2 witness: a fresh validator-less prompt submits its (empty) buffer
content on Enter. -/
theorem C2_enter_submit_witness :
    (Text.new "q").validate = none ∧
    (Text.new "q").notify (Event.Key Key.Enter)
      = (Text.new "q", State.Submit ((Text.new "q").input.to_string)) := by
  exact ⟨rfl, C2_enter_submit.1 (Text.new "q") (Or.inl rfl)⟩

/-- C3: the Escape key yields `State::Cancel` regardless of private state,
and the driver dispatches no further events afterwards (the remaining
stream is ignored, so no subsequent event mutates the private state). -/
theorem C3_escape_cancels :
    (∀ t : Text, dispatchKey t Key.Escape = (t, State.Cancel)) ∧
    (∀ (t : Text) (rest : List TermStep),
      interactRun t (TermStep.key Key.Escape :: rest)
        = RunResult.done Outcome.cancelled) := by
  exact ⟨fun t => rfl, fun t rest => rfl⟩

/-- C4: over every operation sequence from a well-formed buffer the caret
stays within `[0, length]`; `delete_left` at caret 0 and `delete_right`
at the end are no-ops; and `to_string` equals the net effect of the
operations applied in order to the split-text reference model. -/
theorem C4_cursor_buffer_invariants :
    (∀ (sc : StringCursor) (ops : List Op), sc.wf → (sc.applyOps ops).wf) ∧
    (∀ sc : StringCursor, sc.cursor = 0 → sc.delete_left = sc) ∧
    (∀ sc : StringCursor, sc.cursor = sc.chars.length →
      sc.delete_right = sc) ∧
    (∀ (sc : StringCursor) (ops : List Op), sc.wf →
      (sc.applyOps ops).to_string = (sc.toZipper.applyOps ops).toStr) := by
  refine ⟨fun sc ops h => sc.applyOps_wf ops h, ?_, ?_, ?_⟩
  · intro sc h
    simp [StringCursor.delete_left, h]
  · intro sc h
    simp [StringCursor.delete_right, h]
  · intro sc ops h
    rw [StringCursor.to_string_eq_toStr, sc.toZipper_applyOps ops h]

/-- C4 witness: a concrete buffer and operation sequence. -/
theorem C4_cursor_buffer_invariants_witness :
    ((⟨['a', 'b'], 1⟩ : StringCursor).applyOps
      [Op.insert 'x', Op.move_left, Op.delete_right, Op.move_right]).wf ∧
    (⟨['a', 'b'], 0⟩ : StringCursor).delete_left = ⟨['a', 'b'], 0⟩ ∧
    (⟨['a', 'b'], 2⟩ : StringCursor).delete_right = ⟨['a', 'b'], 2⟩ ∧
    ((⟨['a', 'b'], 1⟩ : StringCursor).applyOps
        [Op.insert 'x', Op.move_left, Op.delete_right, Op.move_right]).to_string
      = ((⟨['a', 'b'], 1⟩ : StringCursor).toZipper.applyOps
        [Op.insert 'x', Op.move_left, Op.delete_right, Op.move_right]).toStr := by
  have h := C4_cursor_buffer_invariants
  exact ⟨h.1 ⟨['a', 'b'], 1⟩ _ (by decide),
    h.2.1 ⟨['a', 'b'], 0⟩ rfl,
    h.2.2.1 ⟨['a', 'b'], 2⟩ rfl,
    h.2.2.2 ⟨['a', 'b'], 1⟩ _ (by decide)⟩

/-- C5: `Text::notify` dispatches keys as: a non-control character is
inserted at the caret (which advances by one) returning Active; Backspace
deletes left; Del deletes right; ArrowLeft/ArrowRight move the caret; and
every non-Enter key event returns `State::Active`. -/
theorem C5_notify_dispatch :
    (∀ (t : Text) (c : Char), isAsciiControl c = false →
      t.notify (Event.Key (Key.Char c))
        = ({ t with input := t.input.insert c }, State.Active)) ∧
    (∀ (sc : StringCursor) (c : Char), (sc.insert c).cursor = sc.cursor + 1) ∧
    (∀ t : Text, t.notify (Event.Key Key.Backspace)
      = ({ t with input := t.input.delete_left }, State.Active)) ∧
    (∀ t : Text, t.notify (Event.Key Key.Del)
      = ({ t with input := t.input.delete_right }, State.Active)) ∧
    (∀ t : Text, t.notify (Event.Key Key.ArrowLeft)
      = ({ t with input := t.input.move_left }, State.Active)) ∧
    (∀ t : Text, t.notify (Event.Key Key.ArrowRight)
      = ({ t with input := t.input.move_right }, State.Active)) ∧
    (∀ (t : Text) (k : Key), k ≠ Key.Enter →
      (t.notify (Event.Key k)).2 = State.Active) := by
  refine ⟨fun t c hc => by simp [Text.notify, hc],
    fun sc c => rfl, fun t => rfl, fun t => rfl, fun t => rfl, fun t => rfl,
    fun t k hk => ?_⟩
  cases k <;> simp [Text.notify] at hk ⊢
  split <;> simp

/-- C5 witness: concrete instances of each dispatch equation. -/
theorem C5_notify_dispatch_witness :
    isAsciiControl 'a' = false ∧
    (Text.new "p").notify (Event.Key (Key.Char 'a'))
      = ({ Text.new "p" with input := (Text.new "p").input.insert 'a' },
          State.Active) ∧
    ((Text.new "p").notify (Event.Key (Key.Tab))).2 = State.Active := by
  have h := C5_notify_dispatch
  exact ⟨by decide, h.1 (Text.new "p") 'a' (by decide),
    h.2.2.2.2.2.2 (Text.new "p") Key.Tab (by decide)⟩

/-- C6: for every key event other than Enter, `Text::notify` never invokes
the validator (the outcome and the new input buffer are independent of
which validator is installed) and never returns `State::Error`. -/
theorem C6_validator_only_on_enter :
    (∀ (t : Text) (k : Key) (m : String), k ≠ Key.Enter →
      (t.notify (Event.Key k)).2 ≠ State.Error m) ∧
    (∀ (t : Text) (v₁ v₂ : Option ValidatorFn) (k : Key), k ≠ Key.Enter →
      (({ t with validate := v₁ }).notify (Event.Key k)).2
          = (({ t with validate := v₂ }).notify (Event.Key k)).2 ∧
      (({ t with validate := v₁ }).notify (Event.Key k)).1.input
          = (({ t with validate := v₂ }).notify (Event.Key k)).1.input) := by
  constructor
  · intro t k m hk
    cases k <;> simp [Text.notify] at hk ⊢
    split <;> simp
  · intro t v₁ v₂ k hk
    cases k <;> simp [Text.notify] at hk ⊢
    split <;> simp

/-- C6 witness: a concrete non-Enter key with two different validators. -/
theorem C6_validator_only_on_enter_witness :
    (((Text.new "p").notify (Event.Key Key.Backspace)).2 ≠ State.Error "m") ∧
    (({ Text.new "p" with validate := none }).notify
        (Event.Key Key.Backspace)).2
      = (({ Text.new "p" with
            validate := some fun _ => Except.error "x" }).notify
          (Event.Key Key.Backspace)).2 := by
  have h := C6_validator_only_on_enter
  exact ⟨h.1 (Text.new "p") Key.Backspace "m" (by decide),
    (h.2 (Text.new "p") none (some fun _ => Except.error "x") Key.Backspace
      (by decide)).1⟩

/-- C7: `Text::render` leaves the private state unchanged, and the
rendered string is a function of the private state (prompt, input,
placeholder) and the interaction state only. -/
theorem C7_render_pure :
    (∀ (t : Text) (s : State String), (t.render s).1 = t) ∧
    (∀ (t t' : Text) (s : State String),
      t.prompt = t'.prompt → t.input = t'.input →
      t.placeholder = t'.placeholder →
      (t.render s).2 = (t'.render s).2) := by
  refine ⟨fun t s => rfl, fun t t' s h1 h2 h3 => ?_⟩
  simp [Text.render, h1, h2, h3]

/-- C7 witness: two prompts differing only in their validator render the
same string, and rendering mutates nothing. -/
theorem C7_render_pure_witness :
    ((Text.new "p").render State.Active).1 = Text.new "p" ∧
    ((Text.new "p").render State.Active).2
      = (((Text.new "p").withValidate fun _ => Except.error "x").render
          State.Active).2 := by
  have h := C7_render_pure
  exact ⟨h.1 (Text.new "p") State.Active,
    h.2 (Text.new "p") ((Text.new "p").withValidate fun _ => Except.error "x")
      State.Active rfl rfl rfl⟩

/-- C8: a terminal I/O failure during `interact()` is propagated
immediately as the error result of the call: if the driver is still
pending after a prefix of steps, the first failing step makes the whole
run return that error, whatever comes after it (never retried). -/
theorem C8_io_error_propagates (t : Text) (pre : List TermStep) (e : String)
    (rest : List TermStep) (h : interactRun t pre = RunResult.pending) :
    interactRun t (pre ++ TermStep.ioErr e :: rest) = RunResult.ioError e := by
  induction pre generalizing t with
  | nil => rfl
  | cons step pre' ih =>
    cases step with
    | ioErr e' => simp [interactRun] at h
    | key k =>
      rw [List.cons_append]
      show interactRun t (TermStep.key k :: (pre' ++ TermStep.ioErr e :: rest))
          = RunResult.ioError e
      simp only [interactRun] at h ⊢
      cases hd : dispatchKey t k with
      | mk t' st =>
        rw [hd] at h
        cases st with
        | Active => exact ih t' h
        | Error m => exact ih t' h
        | Submit v => simp at h
        | Cancel => simp at h

/-- C8 witness: after one successfully processed keystroke, an I/O error
step ends a concrete run with that error, ignoring the rest. -/
theorem C8_io_error_propagates_witness :
    interactRun (Text.new "q") [TermStep.key (Key.Char 'a')]
        = RunResult.pending ∧
    interactRun (Text.new "q")
        ([TermStep.key (Key.Char 'a')]
          ++ TermStep.ioErr "broken pipe" :: [TermStep.key Key.Enter])
      = RunResult.ioError "broken pipe" := by
  refine ⟨rfl, ?_⟩
  exact C8_io_error_propagates (Text.new "q") [TermStep.key (Key.Char 'a')]
    "broken pipe" [TermStep.key Key.Enter] rfl

/-- C9: a `Key::Char` event carrying an ASCII control character leaves the
whole private state unchanged and returns `State::Active`. -/
theorem C9_control_char_ignored (t : Text) (c : Char)
    (h : isAsciiControl c = true) :
    t.notify (Event.Key (Key.Char c)) = (t, State.Active) := by
  simp [Text.notify, h]

/-- C9 witness: the BEL control character (U+0007) is ignored. -/
theorem C9_control_char_ignored_witness :
    isAsciiControl (Char.ofNat 7) = true ∧
    (Text.new "p").notify (Event.Key (Key.Char (Char.ofNat 7)))
      = (Text.new "p", State.Active) := by
  exact ⟨by decide,
    C9_control_char_ignored (Text.new "p") (Char.ofNat 7) (by decide)⟩

/-- C10: `Text::placeholder` appends the characters of its argument to the
placeholder buffer (whose caret sits at its end, as it does in every
prompt built through the public constructors) and leaves prompt, input
buffer and validator unchanged — in particular it never seeds the input
buffer. -/
theorem C10_placeholder_appends (t : Text) (s : String)
    (h : t.placeholder.cursor = t.placeholder.chars.length) :
    (t.withPlaceholder s).placeholder.chars
        = t.placeholder.chars ++ s.toList ∧
    (t.withPlaceholder s).placeholder.cursor
        = (t.withPlaceholder s).placeholder.chars.length ∧
    (t.withPlaceholder s).prompt = t.prompt ∧
    (t.withPlaceholder s).input = t.input ∧
    (t.withPlaceholder s).validate = t.validate := by
  have hext := t.placeholder.extend_at_end s.toList h
  refine ⟨?_, ?_, rfl, rfl, rfl⟩
  · show (t.placeholder.extend s).chars = _
    rw [StringCursor.extend, hext]
  · show (t.placeholder.extend s).cursor = (t.placeholder.extend s).chars.length
    rw [StringCursor.extend, hext]
    simp

/-- C10 witness: a fresh prompt given a placeholder twice accumulates it
and keeps its input buffer empty. -/
theorem C10_placeholder_appends_witness :
    (((Text.new "p").withPlaceholder "ab").withPlaceholder "cd").placeholder.chars
        = ((Text.new "p").withPlaceholder "ab").placeholder.chars
          ++ String.toList "cd" ∧
    (((Text.new "p").withPlaceholder "ab").withPlaceholder "cd").input
        = ((Text.new "p").withPlaceholder "ab").input := by
  have h := C10_placeholder_appends ((Text.new "p").withPlaceholder "ab") "cd"
    (by decide)
  exact ⟨h.1, h.2.2.2.1⟩

end Cliclack
